import Mathlib

/-!
Shallow embedding of the host-side ESP32 controller (`python_server.py`):
the status-frame decoder, the status dispatcher, the waiter registry and
the command dispatch layer, together with theorems checking the spec's
claims against these definitions.

Conventions: bytes are `Nat` values below 256; delays and timeouts are in
milliseconds (the source uses seconds as floats: 0.8 s ↦ 800 ms);
Python's `str` is modelled by Lean `String` / `List Char`.
-/

namespace Esp32

/-- The frame marker byte (`MAGIC_BYTE = 0xAB`). -/
def MAGIC_BYTE : Nat := 0xAB

/-- The status-code table (`STATUS_MAP`), as an association list. -/
def STATUS_MAP : List (Nat × String) :=
  [ (10, "WIFI_CONNECT_SUCCESS"),
    (11, "WIFI_CONNECT_FAILURE"),
    (15, "SCANNING_TARGET"),
    (16, "DEVICE_READY"),
    (1, "TARGET_UNREACHABLE"),
    (2, "PORT_OPEN"),
    (3, "SERVICE_NO_RESPONSE"),
    (4, "SERVICE_RESPONDED"),
    (5, "SCAN_CYCLE_START"),
    (6, "SCAN_CYCLE_END") ]

/-- The lookup `STATUS_MAP.get(status_code, "UNKNOWN (%d)" % status_code)` as performed by the reader thread. -/
def statusName (c : Nat) : String :=
  (STATUS_MAP.lookup c).getD ("UNKNOWN (" ++ toString c ++ ")")

/-- The unpack step `struct.unpack` with format `<I`: the 4 address bytes read as a
little-endian unsigned 32-bit integer. -/
def leU32 (b0 b1 b2 b3 : Nat) : Nat :=
  b0 + 256 * b1 + 65536 * b2 + 16777216 * b3

/-- The call `socket.htonl` on a little-endian host: 32-bit byte swap. -/
def htonl (n : Nat) : Nat :=
  (n % 256) * 16777216 + (n / 256 % 256) * 65536 +
    (n / 65536 % 256) * 256 + (n / 16777216 % 256)

/-- Rendering `str(ipaddress.IPv4Address(n))`: dotted quad of the big-endian octets. -/
def ipv4Str (n : Nat) : String :=
  toString (n / 16777216 % 256) ++ "." ++ toString (n / 65536 % 256) ++ "." ++
    toString (n / 256 % 256) ++ "." ++ toString (n % 256)

/-- The address-display pipeline of the reader thread: unpack the 4 address
bytes little-endian, swap to network order, render as a dotted quad. -/
def frameIpStr (b0 b1 b2 b3 : Nat) : String :=
  ipv4Str (htonl (leU32 b0 b1 b2 b3))

/-- A UTF-8 continuation byte (`0x80..0xBF`). -/
def isCont (b : Nat) : Bool := 0x80 ≤ b && b ≤ 0xBF

/-- Python `bytes.decode` with `utf-8` and `errors='ignore'`: decode UTF-8, silently
skipping malformed bytes (maximal-valid-subpart error ranges, as in
CPython's decoder).  Total by construction: it never fails. -/
def utf8DecodeIgnore : List Nat → List Char
  | [] => []
  | b :: rest =>
    if b < 0x80 then
      Char.ofNat b :: utf8DecodeIgnore rest
    else if 0xC2 ≤ b && b ≤ 0xDF then
      match rest with
      | [] => []
      | b1 :: rest1 =>
        if isCont b1 then
          Char.ofNat ((b - 0xC0) * 64 + (b1 - 0x80)) :: utf8DecodeIgnore rest1
        else
          utf8DecodeIgnore (b1 :: rest1)
    else if 0xE0 ≤ b && b ≤ 0xEF then
      match rest with
      | [] => []
      | b1 :: rest1 =>
        if (b == 0xE0 && (0xA0 ≤ b1 && b1 ≤ 0xBF)) ||
           (b == 0xED && (0x80 ≤ b1 && b1 ≤ 0x9F)) ||
           (b != 0xE0 && b != 0xED && isCont b1) then
          match rest1 with
          | [] => []
          | b2 :: rest2 =>
            if isCont b2 then
              Char.ofNat ((b - 0xE0) * 4096 + (b1 - 0x80) * 64 + (b2 - 0x80)) ::
                utf8DecodeIgnore rest2
            else
              utf8DecodeIgnore (b2 :: rest2)
        else
          utf8DecodeIgnore (b1 :: rest1)
    else if 0xF0 ≤ b && b ≤ 0xF4 then
      match rest with
      | [] => []
      | b1 :: rest1 =>
        if (b == 0xF0 && (0x90 ≤ b1 && b1 ≤ 0xBF)) ||
           (b == 0xF4 && (0x80 ≤ b1 && b1 ≤ 0x8F)) ||
           (b != 0xF0 && b != 0xF4 && isCont b1) then
          match rest1 with
          | [] => []
          | b2 :: rest2 =>
            if isCont b2 then
              match rest2 with
              | [] => []
              | b3 :: rest3 =>
                if isCont b3 then
                  Char.ofNat ((b - 0xF0) * 262144 + (b1 - 0x80) * 4096 +
                      (b2 - 0x80) * 64 + (b3 - 0x80)) :: utf8DecodeIgnore rest3
                else
                  utf8DecodeIgnore (b3 :: rest3)
            else
              utf8DecodeIgnore (b2 :: rest2)
        else
          utf8DecodeIgnore (b1 :: rest1)
    else
      utf8DecodeIgnore rest

/-- The same decoding loop following the spec's wording instead: malformed
bytes are replaced with the replacement character U+FFFD rather than
skipped (this is what `errors='replace'` would do). -/
def utf8DecodeReplaceSpec : List Nat → List Char
  | [] => []
  | b :: rest =>
    if b < 0x80 then
      Char.ofNat b :: utf8DecodeReplaceSpec rest
    else if 0xC2 ≤ b && b ≤ 0xDF then
      match rest with
      | [] => ['�']
      | b1 :: rest1 =>
        if isCont b1 then
          Char.ofNat ((b - 0xC0) * 64 + (b1 - 0x80)) :: utf8DecodeReplaceSpec rest1
        else
          '�' :: utf8DecodeReplaceSpec (b1 :: rest1)
    else
      '�' :: utf8DecodeReplaceSpec rest

/-- Python `str.strip()` whitespace, restricted to the ASCII whitespace
characters that can appear in the device's byte stream. -/
def isPySpace (c : Char) : Bool :=
  c == ' ' || c == '\t' || c == '\n' || c == '\r' ||
    c == Char.ofNat 0x0B || c == Char.ofNat 0x0C

/-- Python `str.strip()`: drop whitespace from both ends. -/
def pyStrip (s : List Char) : List Char :=
  ((s.dropWhile isPySpace).reverse.dropWhile isPySpace).reverse

/-- The composite `line.decode` plus `strip` applied to one raw line. -/
def debugMsg (line : List Nat) : String :=
  String.mk (pyStrip (utf8DecodeIgnore line))

/-- An event emitted by the reader thread's framing loop: a decoded status
frame (displayed address and status code) or a non-empty debug line. -/
inductive Event where
  | status (ip : String) (code : Nat)
  | debug (msg : String)
deriving DecidableEq, Repr

/-- Outcome of one iteration of the `while buffer:` loop: either the loop
breaks (`stuck`, carrying the possibly-truncated buffer) or it consumes one
unit and continues (`emit`; `none` for a line that strips to empty). -/
inductive StepOut where
  | stuck (buf : List Nat)
  | emit (e : Option Event) (buf : List Nat)
deriving DecidableEq, Repr

/-- The scan `buffer.find` for a newline: index of the first newline byte, if any. -/
def findNL : List Nat → Option Nat
  | [] => none
  | b :: rest => if b = 10 then some 0 else (findNL rest).map (· + 1)

/-- One iteration of the framing loop body. -/
def step (buf : List Nat) : StepOut :=
  match buf with
  | [] => .stuck []
  | b :: rest =>
    if b = MAGIC_BYTE then
      if buf.length < 6 then .stuck buf
      else
        .emit (some (.status
          (frameIpStr (rest.getD 0 0) (rest.getD 1 0) (rest.getD 2 0) (rest.getD 3 0))
          (rest.getD 4 0))) (buf.drop 6)
    else
      match findNL buf with
      | none =>
        if buf.length > 2048 then .stuck (buf.drop (buf.length - 256))
        else .stuck buf
      | some i =>
        let msg := debugMsg (buf.take (i + 1))
        .emit (if msg = "" then none else some (.debug msg)) (buf.drop (i + 1))

/-- The framing loop, fuelled: runs `step` until it sticks or fuel runs
out.  Returns the events emitted (in order) and the residual buffer. -/
def processBuf : Nat → List Nat → List Event × List Nat
  | 0, buf => ([], buf)
  | fuel + 1, buf =>
    match step buf with
    | .stuck r => ([], r)
    | .emit e r =>
      let p := processBuf fuel r
      (e.toList ++ p.1, p.2)

/-- Run the framing loop on a buffer to completion (each `emit` consumes at
least one byte, so `buf.length` fuel always suffices). -/
def runBuf (buf : List Nat) : List Event × List Nat :=
  processBuf buf.length buf

/-- Process one newly arrived chunk: append it to the residual buffer and
run the framing loop, accumulating events. -/
def feedChunk (st : List Event × List Nat) (chunk : List Nat) : List Event × List Nat :=
  let p := runBuf (st.2 ++ chunk)
  (st.1 ++ p.1, p.2)

/-- Feed a sequence of chunks one at a time, starting from an empty buffer. -/
def decodeChunks (chunks : List (List Nat)) : List Event × List Nat :=
  chunks.foldl feedChunk ([], [])

/-- The reader thread's per-frame branch structure, reduced to the one side
effect the spec singles out: whether `release_prompt()` is called directly
(besides the unconditional `notify_status_waiters`).  `numWaiters` is the
length of `status_waiters` read under the lock. -/
def statusDirectRelease (b0 b1 b2 b3 code numWaiters : Nat) : Bool :=
  if code = 10 then false
  else if code = 11 then false
  else if code = 15 then false
  else if frameIpStr b0 b1 b2 b3 = "0.0.0.0" then
    if statusName code = "SCAN_CYCLE_START" then false
    else if statusName code = "SCAN_CYCLE_END" then false
    else if statusName code = "DEVICE_READY" then numWaiters == 0
    else false
  else false

/-- A registered waiter: its `threading.Event` is identified by `id` (each
registration creates a fresh event object) and `statuses` is its interest
set. -/
structure Waiter where
  id : Nat
  statuses : List String
deriving DecidableEq, Repr

/-- The waiter registry: the `status_waiters` list plus, as the observable
trace of `event.set()` calls, the multiset of ids fired so far. -/
structure Registry where
  waiters : List Waiter
  fired : List Nat
deriving DecidableEq, Repr

/-- The function `register_status_waiter`: append a fresh waiter. -/
def registerStatusWaiter (st : Registry) (w : Waiter) : Registry :=
  { st with waiters := st.waiters ++ [w] }

/-- The function `unregister_status_waiter`: drop the waiter with the given event id. -/
def unregisterStatusWaiter (st : Registry) (i : Nat) : Registry :=
  { st with waiters := st.waiters.filter (fun w => w.id ≠ i) }

/-- The function `notify_status_waiters`: under the lock, move every waiter whose
interest set contains `status` out of the registry; then set each removed
waiter's event. -/
def notifyStatusWaiters (st : Registry) (status : String) : Registry :=
  let triggered := st.waiters.filter (fun w => w.statuses.contains status)
  { waiters := st.waiters.filter (fun w => ! w.statuses.contains status),
    fired := st.fired ++ triggered.map (·.id) }

/-- The gate effect a command handler ends with: a timed hold
(`hold_prompt`, delay in ms), a status-conditioned hold
(`hold_prompt_until_status`, timeout/fallback in ms), an immediate
`release_prompt`, or none. -/
inductive Gate where
  | none
  | hold (delayMs : Nat)
  | holdUntil (statuses : List String) (timeoutMs fallbackMs : Nat)
  | release
deriving DecidableEq, Repr

/-- Observable outcome of one command handler: serial writes, printed
error/usage messages, log lines, a config save if any, and the gate
effect. -/
structure CmdResult where
  writes : List String
  errors : List String
  logs : List String
  configSaved : Option (List (String × String))
  gate : Gate
deriving DecidableEq, Repr

/-- A local error path: print the message, no write, default hold
(`DEFAULT_PROMPT_DELAY = 0.8 s`). -/
def mkErr (msg : String) : CmdResult :=
  { writes := [], errors := [msg], logs := [], configSaved := none, gate := .hold 800 }

/-- A decimal digit. -/
def isDigitChar (c : Char) : Bool := '0' ≤ c && c ≤ '9'

/-- Value of a digit string. -/
def digitsVal (p : List Char) : Nat :=
  p.foldl (fun a c => a * 10 + (c.toNat - 48)) 0

/-- Python `int(s)`: optional sign followed by digits (numeric-literal
underscores and non-ASCII digits are not modelled). `none` is `ValueError`. -/
def parseIntPy (s : String) : Option Int :=
  match s.data with
  | [] => Option.none
  | '-' :: ds => if ds ≠ [] && ds.all isDigitChar then some (-(digitsVal ds : Int)) else Option.none
  | '+' :: ds => if ds ≠ [] && ds.all isDigitChar then some (digitsVal ds : Int) else Option.none
  | ds => if ds.all isDigitChar then some (digitsVal ds : Int) else Option.none

/-- Python `str.split` on a dot, over the character list, keeping empty parts. -/
def splitOnDot : List Char → List (List Char)
  | [] => [[]]
  | c :: rest =>
    if c = '.' then [] :: splitOnDot rest
    else
      match splitOnDot rest with
      | [] => [[c]]
      | p :: ps => (c :: p) :: ps

/-- One octet of a dotted quad, per `ipaddress.IPv4Address`: 1–3 ASCII
digits, no leading zero, value at most 255. -/
def octetOk (p : List Char) : Bool :=
  !p.isEmpty && p.length ≤ 3 && p.all isDigitChar &&
    (p.length == 1 || p.head? != some '0') && digitsVal p ≤ 255

/-- Whether `ipaddress.IPv4Address(s)` succeeds: exactly 4 valid octets. -/
def isValidIPv4 (s : String) : Bool :=
  let parts := splitOnDot s.data
  parts.length == 4 && parts.all octetOk

/-- The option-parsing loop of `cmd_join`: walk the tokens, pairing each
recognised flag with the next token (`next(it)`).  `Except` carries the
printed usage/­error message of the failing path. -/
def joinParseLoop :
    List String → Option String → Option String → Option Int →
      Except String (Option String × Option String × Option Int)
  | [], s, p, i => .ok (s, p, i)
  | t :: rest, s, p, i =>
    if t = "-i" ∨ t = "--index" then
      match rest with
      | [] => .error "Usage: join -i <index>"
      | v :: rest1 =>
        match parseIntPy v with
        | Option.none => .error "Usage: join -i <index>"
        | some n => joinParseLoop rest1 s p (some n)
    else if t = "-s" ∨ t = "--ssid" then
      match rest with
      | [] => .error "Usage: join -s <ssid> -p <password>"
      | v :: rest1 => joinParseLoop rest1 (some v) p i
    else if t = "-p" ∨ t = "--password" then
      match rest with
      | [] => .error "Usage: join -s <ssid> -p <password>"
      | v :: rest1 => joinParseLoop rest1 s (some v) i
    else .error ("Unknown option: " ++ t)

/-- The store update `save_wifi_config` through the dict: update the value if the ssid
exists, else append the pair. -/
def updateStore (saved : List (String × String)) (k v : String) :
    List (String × String) :=
  if (saved.lookup k).isSome then
    saved.map (fun q => if q.1 = k then (k, v) else q)
  else saved ++ [(k, v)]

/-- The tail of `cmd_join` from `send_serial_command` on: write
`join <ssid> <password>` and arm the status-conditioned hold, or catch the
`RuntimeError` when the serial port is down (warning log, default hold). -/
def joinSend (ssid password : String) (ready : Bool) (logs : List String)
    (saved : Option (List (String × String))) : CmdResult :=
  if ready then
    { writes := ["join " ++ ssid ++ " " ++ password ++ "\n"], errors := [],
      logs := logs, configSaved := saved,
      gate := .holdUntil ["WIFI_CONNECT_SUCCESS", "WIFI_CONNECT_FAILURE"] 25000 500 }
  else
    { writes := [], errors := [], logs := logs ++ ["ESP32 is not connected."],
      configSaved := saved, gate := .hold 800 }

/-- The handler `cmd_join`: `saved` is the saved-network store (insertion-ordered
ssid/password pairs), `ready` is `is_serial_ready()`. -/
def cmd_join (args : List String) (saved : List (String × String))
    (ready : Bool) : CmdResult :=
  match joinParseLoop args Option.none Option.none Option.none with
  | .error msg => mkErr msg
  | .ok (ssidOpt, passOpt, idxOpt) =>
    match idxOpt with
    | some idx =>
      if saved.isEmpty then mkErr "No saved networks available."
      else if 0 ≤ idx ∧ idx < (saved.length : Int) then
        let pair := saved.getD idx.toNat ("", "")
        joinSend pair.1 pair.2 ready
          ["Joining saved network [" ++ toString idx ++ "]: " ++ pair.1] Option.none
      else mkErr "Error: Index out of bounds."
    | Option.none =>
      match ssidOpt, passOpt with
      | some s, some p =>
        if s ≠ "" ∧ p ≠ "" then
          if saved.lookup s ≠ some p then
            joinSend s p ready
              ["Network '" ++ s ++ "' saved.", "Joining new network: " ++ s]
              (some (updateStore saved s p))
          else
            joinSend s p ready ["Joining new network: " ++ s] Option.none
        else mkErr "Usage:\n  join -s <ssid> -p <password>\n  join -i <index>"
      | _, _ => mkErr "Usage:\n  join -s <ssid> -p <password>\n  join -i <index>"

/-- The handler `cmd_scan`: `ready` is `is_serial_ready()`. -/
def cmd_scan (args : List String) (ready : Bool) : CmdResult :=
  match args with
  | [] => mkErr "Usage: scan -all | scan -t <ipv4>"
  | a0 :: rest =>
    if a0 = "-all" ∨ a0 = "--all" then
      if ready then
        { writes := ["scan -all\n"], errors := [],
          logs := ["Requested full subnet scan."], configSaved := Option.none,
          gate := .holdUntil ["SCAN_CYCLE_END"] 180000 1000 }
      else
        { writes := [], errors := [], logs := ["ESP32 is not connected."],
          configSaved := Option.none, gate := .hold 800 }
    else
      match rest with
      | ip :: _ =>
        if a0 = "-t" then
          if isValidIPv4 ip then
            if ready then
              { writes := ["scan -t " ++ ip ++ "\n"], errors := [],
                logs := ["Requested targeted scan: " ++ ip], configSaved := Option.none,
                gate := .holdUntil ["SCAN_CYCLE_END"] 60000 800 }
            else
              { writes := [], errors := [], logs := ["ESP32 is not connected."],
                configSaved := Option.none, gate := .hold 800 }
          else mkErr "Error: Invalid IPv4 address."
        else mkErr "Usage: scan -all | scan -t <ipv4>"
      | [] => mkErr "Usage: scan -all | scan -t <ipv4>"

/-- The command handlers reachable from `command_map`. -/
inductive Handler where
  | help | exit | clear | status | networks | join | scan
  | randomizeMac | reboot | ipconfig
deriving DecidableEq, Repr

/-- The `command_map` verb table. -/
def command_map : List (String × Handler) :=
  [ ("help", .help), ("exit", .exit), ("quit", .exit), ("q", .exit),
    ("clear", .clear), ("cls", .clear), ("status", .status),
    ("networks", .networks), ("join", .join), ("scan", .scan),
    ("randomize_mac", .randomizeMac), ("randomise_mac", .randomizeMac),
    ("reboot", .reboot), ("ipconfig", .ipconfig) ]

/-- Python `str.lower()` restricted to ASCII letters (all verbs are ASCII). -/
def lowerChar (c : Char) : Char :=
  if 'A' ≤ c ∧ c ≤ 'Z' then Char.ofNat (c.toNat + 32) else c

/-- The lowering `tokens[0].lower()` applied to a whole token. -/
def pyLower (s : String) : String := String.mk (s.data.map lowerChar)

/-- The dispatch step of the console loop: lowercase the first token only,
look it up in `command_map`, and pass the remaining tokens unchanged. -/
def dispatch (tokens : List String) : Option (Handler × List String) :=
  match tokens with
  | [] => Option.none
  | t :: rest => (command_map.lookup (pyLower t)).map (fun h => (h, rest))

example : statusName 10 = "WIFI_CONNECT_SUCCESS" := by decide

example : statusName 200 = "UNKNOWN (200)" := by decide

example : frameIpStr 192 168 1 42 = "192.168.1.42" := by decide

example : utf8DecodeIgnore [0xFF, 65] = ['A'] := by decide

example : utf8DecodeReplaceSpec [0xFF, 65] = ['�', 'A'] := by decide

example : debugMsg [32, 104, 105, 10] = "hi" := by decide

example :
    runBuf [0xAB, 192, 168, 1, 42, 10, 104, 105, 10] =
      ([.status "192.168.1.42" 10, .debug "hi"], []) := by decide

example : runBuf [0xAB, 1, 2] = ([], [0xAB, 1, 2]) := by decide

example :
    decodeChunks [[0xAB, 192], [168, 1, 42, 10]] =
      ([.status "192.168.1.42" 10], []) := by decide

example : isValidIPv4 "192.168.1.42" = true := by decide

example : isValidIPv4 "999.999.999.999" = false := by decide

example : isValidIPv4 "1.2.3" = false := by decide

example : isValidIPv4 "01.2.3.4" = false := by decide

example : dispatch ["SCAN", "-all"] = some (.scan, ["-all"]) := by decide

example : (cmd_scan ["-t", "999.999.999.999"] true).writes = [] := by decide

example : (cmd_join ["-i", "0"] [] true).gate = .hold 800 := by decide

lemma findNL_eq_none_iff (l : List Nat) : findNL l = Option.none ↔ 10 ∉ l := by
  induction l with
  | nil => simp [findNL]
  | cons b rest ih =>
    by_cases hb : b = 10
    · subst hb; simp [findNL]
    · simp [findNL, hb, Option.map_eq_none', ih, Ne.symm hb]

lemma findNL_some_lt (l : List Nat) (i : Nat) (h : findNL l = some i) :
    i < l.length := by
  induction l generalizing i with
  | nil => simp [findNL] at h
  | cons b rest ih =>
    by_cases hb : b = 10
    · subst hb
      simp [findNL] at h
      simp
      omega
    · simp [findNL, hb] at h
      obtain ⟨j, hj, rfl⟩ := h
      have := ih j hj
      simp
      omega

lemma findNL_append_some (l l' : List Nat) (i : Nat) (h : findNL l = some i) :
    findNL (l ++ l') = some i := by
  induction l generalizing i with
  | nil => simp [findNL] at h
  | cons b rest ih =>
    by_cases hb : b = 10
    · subst hb; simp [findNL] at h ⊢; omega
    · simp [findNL, hb] at h ⊢
      obtain ⟨j, hj, rfl⟩ := h
      exact ⟨j, ih j hj, rfl⟩

lemma step_nil : step [] = .stuck [] := rfl

lemma step_magic_short (rest : List Nat) (h : rest.length < 5) :
    step (MAGIC_BYTE :: rest) = .stuck (MAGIC_BYTE :: rest) := by
  have h6 : rest.length + 1 < 6 := by omega
  simp [step, h6]

lemma step_magic_frame (rest : List Nat) (h : 5 ≤ rest.length) :
    step (MAGIC_BYTE :: rest) =
      .emit (some (.status
        (frameIpStr (rest.getD 0 0) (rest.getD 1 0) (rest.getD 2 0) (rest.getD 3 0))
        (rest.getD 4 0))) (rest.drop 5) := by
  have h6 : ¬ (rest.length + 1 < 6) := by omega
  simp [step, h6]

lemma step_text_nonl_small (b : Nat) (rest : List Nat) (hb : b ≠ MAGIC_BYTE)
    (hnl : findNL (b :: rest) = Option.none) (hlen : (b :: rest).length ≤ 2048) :
    step (b :: rest) = .stuck (b :: rest) := by
  have hl : ¬ (2048 < rest.length + 1) := by simp at hlen; omega
  simp [step, hb, hnl, hl]

lemma step_text_nonl_big (b : Nat) (rest : List Nat) (hb : b ≠ MAGIC_BYTE)
    (hnl : findNL (b :: rest) = Option.none) (hlen : (b :: rest).length > 2048) :
    step (b :: rest) = .stuck ((b :: rest).drop ((b :: rest).length - 256)) := by
  have hl : 2048 < rest.length + 1 := by simp at hlen; omega
  simp [step, hb, hnl, hl]

lemma step_text_line (b : Nat) (rest : List Nat) (i : Nat) (hb : b ≠ MAGIC_BYTE)
    (hnl : findNL (b :: rest) = some i) :
    step (b :: rest) =
      .emit (if debugMsg ((b :: rest).take (i + 1)) = "" then Option.none
          else some (.debug (debugMsg ((b :: rest).take (i + 1)))))
        ((b :: rest).drop (i + 1)) := by
  simp only [step, if_neg hb, hnl]

lemma step_emit_length (buf r : List Nat) (e : Option Event)
    (h : step buf = .emit e r) : r.length < buf.length := by
  match buf with
  | [] => simp [step] at h
  | b :: rest =>
    by_cases hb : b = MAGIC_BYTE
    · subst hb
      by_cases hlen : rest.length < 5
      · rw [step_magic_short rest hlen] at h; exact absurd h (by simp)
      · rw [step_magic_frame rest (by omega)] at h
        cases h
        simp; omega
    · rcases hnl : findNL (b :: rest) with - | i
      · by_cases hlen : (b :: rest).length ≤ 2048
        · rw [step_text_nonl_small b rest hb hnl hlen] at h; exact absurd h (by simp)
        · rw [step_text_nonl_big b rest hb hnl (by omega)] at h; exact absurd h (by simp)
      · have hi := findNL_some_lt _ _ hnl
        rw [step_text_line b rest i hb hnl] at h
        cases h
        simp at hi ⊢
        omega

set_option maxRecDepth 4000 in
lemma step_stuck_length (buf r : List Nat) (h : step buf = .stuck r) :
    r.length ≤ buf.length := by
  match buf with
  | [] => rw [step_nil] at h; cases h; simp
  | b :: rest =>
    by_cases hb : b = MAGIC_BYTE
    · subst hb
      by_cases hlen : rest.length < 5
      · rw [step_magic_short rest hlen] at h; cases h; simp
      · rw [step_magic_frame rest (by omega)] at h; exact absurd h (by simp)
    · rcases hnl : findNL (b :: rest) with - | i
      · by_cases hlen : (b :: rest).length ≤ 2048
        · rw [step_text_nonl_small b rest hb hnl hlen] at h; cases h; simp
        · rw [step_text_nonl_big b rest hb hnl (by omega)] at h
          cases h
          rw [List.length_drop]
          omega
      · rw [step_text_line b rest i hb hnl] at h; exact absurd h (by simp)

lemma step_stuck_eq_of_le (buf r : List Nat) (hle : buf.length ≤ 2048)
    (h : step buf = .stuck r) : r = buf := by
  match buf with
  | [] => rw [step_nil] at h; cases h; rfl
  | b :: rest =>
    by_cases hb : b = MAGIC_BYTE
    · subst hb
      by_cases hlen : rest.length < 5
      · rw [step_magic_short rest hlen] at h; cases h; rfl
      · rw [step_magic_frame rest (by omega)] at h; exact absurd h (by simp)
    · rcases hnl : findNL (b :: rest) with - | i
      · rw [step_text_nonl_small b rest hb hnl hle] at h; cases h; rfl
      · rw [step_text_line b rest i hb hnl] at h; exact absurd h (by simp)

lemma processBuf_zero (buf : List Nat) : processBuf 0 buf = ([], buf) := rfl

lemma processBuf_succ_stuck (fuel : Nat) (buf r : List Nat)
    (h : step buf = .stuck r) : processBuf (fuel + 1) buf = ([], r) := by
  unfold processBuf
  rw [h]

lemma processBuf_succ_emit (fuel : Nat) (buf r : List Nat) (e : Option Event)
    (h : step buf = .emit e r) :
    processBuf (fuel + 1) buf =
      (e.toList ++ (processBuf fuel r).1, (processBuf fuel r).2) := by
  conv_lhs => unfold processBuf
  rw [h]

lemma processBuf_nil (fuel : Nat) : processBuf fuel [] = ([], []) := by
  cases fuel with
  | zero => rfl
  | succ fuel => exact processBuf_succ_stuck fuel [] [] step_nil

lemma processBuf_congr (fuel fuel' : Nat) (buf : List Nat)
    (h : buf.length ≤ fuel) (h' : buf.length ≤ fuel') :
    processBuf fuel buf = processBuf fuel' buf := by
  induction fuel generalizing buf fuel' with
  | zero =>
    have hb : buf = [] := by
      cases buf
      · rfl
      · simp at h
    subst hb
    rw [processBuf_nil, processBuf_nil]
  | succ fuel ih =>
    cases fuel' with
    | zero =>
      have hb : buf = [] := by
        cases buf
        · rfl
        · simp at h'
      subst hb
      rw [processBuf_nil, processBuf_nil]
    | succ fuel' =>
      cases hs : step buf with
      | stuck r =>
        rw [processBuf_succ_stuck fuel buf r hs, processBuf_succ_stuck fuel' buf r hs]
      | emit e r =>
        have hr := step_emit_length buf r e hs
        rw [processBuf_succ_emit fuel buf r e hs, processBuf_succ_emit fuel' buf r e hs,
          ih fuel' r (by omega) (by omega)]

lemma runBuf_nil : runBuf [] = ([], []) := rfl

lemma runBuf_stuck (buf r : List Nat) (h : step buf = .stuck r) :
    runBuf buf = ([], r) := by
  cases buf with
  | nil =>
    rw [step_nil] at h
    cases h
    rfl
  | cons b rest =>
    exact processBuf_succ_stuck rest.length (b :: rest) r h

lemma runBuf_emit (buf r : List Nat) (e : Option Event)
    (h : step buf = .emit e r) :
    runBuf buf = (e.toList ++ (runBuf r).1, (runBuf r).2) := by
  have hr := step_emit_length buf r e h
  cases buf with
  | nil => rw [step_nil] at h; cases h
  | cons x xs =>
    show processBuf (xs.length + 1) (x :: xs) = _
    rw [processBuf_succ_emit xs.length (x :: xs) r e h,
      processBuf_congr xs.length r.length r (by simp at hr; omega) le_rfl]
    rfl

lemma processBuf_snd_length (fuel : Nat) (buf : List Nat) :
    (processBuf fuel buf).2.length ≤ buf.length := by
  induction fuel generalizing buf with
  | zero => simp [processBuf_zero]
  | succ fuel ih =>
    cases hs : step buf with
    | stuck r =>
      rw [processBuf_succ_stuck fuel buf r hs]
      exact step_stuck_length buf r hs
    | emit e r =>
      have := step_emit_length buf r e hs
      rw [processBuf_succ_emit fuel buf r e hs]
      calc (processBuf fuel r).2.length ≤ r.length := ih r
        _ ≤ buf.length := by omega

lemma runBuf_snd_length (buf : List Nat) : (runBuf buf).2.length ≤ buf.length :=
  processBuf_snd_length buf.length buf

lemma processBuf_snd_stuck (fuel : Nat) (buf : List Nat)
    (hle : buf.length ≤ 2048) (hf : buf.length ≤ fuel) :
    step (processBuf fuel buf).2 = .stuck (processBuf fuel buf).2 := by
  induction fuel generalizing buf with
  | zero =>
    have hb : buf = [] := by
      cases buf
      · rfl
      · simp at hf
    subst hb
    rw [processBuf_zero]
    exact step_nil
  | succ fuel ih =>
    cases hs : step buf with
    | stuck r =>
      have hrb := step_stuck_eq_of_le buf r hle hs
      rw [hrb] at hs
      rw [processBuf_succ_stuck fuel buf buf hs]
      exact hs
    | emit e r =>
      have hlt := step_emit_length buf r e hs
      rw [processBuf_succ_emit fuel buf r e hs]
      exact ih r (by omega) (by omega)

lemma runBuf_snd_stuck (buf : List Nat) (hle : buf.length ≤ 2048) :
    step (runBuf buf).2 = .stuck (runBuf buf).2 :=
  processBuf_snd_stuck buf.length buf hle le_rfl

lemma step_emit_append (buf r more : List Nat) (e : Option Event)
    (h : step buf = .emit e r) : step (buf ++ more) = .emit e (r ++ more) := by
  match buf with
  | [] => rw [step_nil] at h; exact absurd h (by simp)
  | b :: rest =>
    by_cases hb : b = MAGIC_BYTE
    · subst hb
      by_cases hlen : rest.length < 5
      · rw [step_magic_short rest hlen] at h; exact absurd h (by simp)
      · rw [step_magic_frame rest (by omega)] at h
        cases h
        rw [show (MAGIC_BYTE :: rest) ++ more = MAGIC_BYTE :: (rest ++ more) from rfl,
          step_magic_frame (rest ++ more) (by simp; omega)]
        rw [List.getD_append _ _ _ _ (by omega), List.getD_append _ _ _ _ (by omega),
          List.getD_append _ _ _ _ (by omega), List.getD_append _ _ _ _ (by omega),
          List.getD_append _ _ _ _ (by omega),
          List.drop_append_of_le_length (by omega)]
    · rcases hnl : findNL (b :: rest) with - | i
      · by_cases hlen : (b :: rest).length ≤ 2048
        · rw [step_text_nonl_small b rest hb hnl hlen] at h
          exact absurd h (by simp)
        · rw [step_text_nonl_big b rest hb hnl (by omega)] at h
          exact absurd h (by simp)
      · have hi := findNL_some_lt _ _ hnl
        rw [step_text_line b rest i hb hnl] at h
        cases h
        rw [show (b :: rest) ++ more = b :: (rest ++ more) from rfl]
        have hnl' : findNL (b :: (rest ++ more)) = some i :=
          findNL_append_some (b :: rest) more i hnl
        rw [step_text_line b (rest ++ more) i hb hnl']
        simp at hi
        rw [show b :: (rest ++ more) = (b :: rest) ++ more from rfl,
          List.take_append_of_le_length (by simp; omega),
          List.drop_append_of_le_length (by simp; omega)]

lemma runBuf_append (fuel : Nat) (a b : List Nat) (hf : a.length ≤ fuel)
    (hle : a.length ≤ 2048) :
    runBuf (a ++ b) =
      ((runBuf a).1 ++ (runBuf ((runBuf a).2 ++ b)).1,
        (runBuf ((runBuf a).2 ++ b)).2) := by
  induction fuel generalizing a with
  | zero =>
    have ha : a = [] := by
      cases a
      · rfl
      · simp at hf
    subst ha
    simp [runBuf_nil]
  | succ fuel ih =>
    cases hs : step a with
    | stuck r =>
      have hra := step_stuck_eq_of_le a r hle hs
      rw [hra] at hs
      rw [runBuf_stuck a a hs]
      simp
    | emit e r =>
      have hlt := step_emit_length a r e hs
      have hs' := step_emit_append a r b e hs
      rw [runBuf_emit a r e hs, runBuf_emit (a ++ b) (r ++ b) e hs',
        ih r (by omega) (by omega)]
      simp

lemma foldl_feedChunk (chunks : List (List Nat)) (es0 : List Event)
    (buf : List Nat) (hstuck : step buf = .stuck buf)
    (hlen : buf.length + chunks.flatten.length ≤ 2048) :
    chunks.foldl feedChunk (es0, buf) =
      (es0 ++ (runBuf (buf ++ chunks.flatten)).1,
        (runBuf (buf ++ chunks.flatten)).2) := by
  induction chunks generalizing es0 buf with
  | nil =>
    simp only [List.foldl_nil, List.flatten_nil, List.append_nil]
    rw [runBuf_stuck buf buf hstuck]
    simp
  | cons c cs ih =>
    have hc : (buf ++ c).length ≤ 2048 := by
      simp at hlen ⊢
      omega
    have hr1stuck : step (runBuf (buf ++ c)).2 = .stuck (runBuf (buf ++ c)).2 :=
      runBuf_snd_stuck (buf ++ c) hc
    have hr1len : (runBuf (buf ++ c)).2.length ≤ (buf ++ c).length :=
      runBuf_snd_length (buf ++ c)
    rw [List.foldl_cons]
    rw [show feedChunk (es0, buf) c =
      (es0 ++ (runBuf (buf ++ c)).1, (runBuf (buf ++ c)).2) from rfl]
    rw [ih (es0 ++ (runBuf (buf ++ c)).1) (runBuf (buf ++ c)).2 hr1stuck
      (by simp at hlen hr1len ⊢; omega)]
    rw [List.flatten_cons, show buf ++ (c ++ cs.flatten) = (buf ++ c) ++ cs.flatten
      from (List.append_assoc buf c cs.flatten).symm]
    rw [runBuf_append (buf ++ c).length (buf ++ c) cs.flatten le_rfl hc]
    simp

/-- The chunk-invariance law restricted away from the truncation path: as
long as the total input fits the 2048-byte cap, chunked and at-once
decoding agree. -/
lemma decodeChunks_eq_runBuf (chunks : List (List Nat))
    (h : chunks.flatten.length ≤ 2048) :
    decodeChunks chunks = runBuf chunks.flatten := by
  unfold decodeChunks
  rw [foldl_feedChunk chunks [] [] step_nil (by simpa using h)]
  simp

lemma findNL_replicate_none (n a : Nat) (ha : a ≠ 10) :
    findNL (List.replicate n a) = Option.none := by
  rw [findNL_eq_none_iff]
  intro hmem
  rw [List.mem_replicate] at hmem
  exact ha hmem.2.symm

lemma findNL_replicate_append_ten (n a : Nat) (ha : a ≠ 10) :
    findNL (List.replicate n a ++ [10]) = some n := by
  induction n with
  | zero => simp [findNL]
  | succ n ih =>
    rw [List.replicate_succ, List.cons_append]
    simp [findNL, ha, ih]

lemma utf8DecodeIgnore_ascii_cons (b : Nat) (l : List Nat) (h : b < 128) :
    utf8DecodeIgnore (b :: l) = Char.ofNat b :: utf8DecodeIgnore l := by
  rw [utf8DecodeIgnore.eq_def]
  dsimp only
  rw [if_pos h]

lemma utf8DecodeIgnore_rep97_ten (n : Nat) :
    utf8DecodeIgnore (List.replicate n 97 ++ [10]) =
      List.replicate n 'a' ++ ['\n'] := by
  induction n with
  | zero => decide
  | succ n ih =>
    rw [List.replicate_succ, List.cons_append,
      utf8DecodeIgnore_ascii_cons 97 _ (by omega), ih,
      show Char.ofNat 97 = 'a' from rfl, List.replicate_succ 'a' n,
      List.cons_append]

lemma dropWhile_replicate_a (n : Nat) :
    (List.replicate (n + 1) 'a').dropWhile isPySpace = List.replicate (n + 1) 'a' := by
  rw [List.replicate_succ, List.dropWhile_cons]
  simp [isPySpace]

lemma pyStrip_rep_a_newline (n : Nat) :
    pyStrip (List.replicate (n + 1) 'a' ++ ['\n']) = List.replicate (n + 1) 'a' := by
  unfold pyStrip
  rw [show List.replicate (n + 1) 'a' ++ ['\n'] =
    'a' :: (List.replicate n 'a' ++ ['\n']) from by
      rw [List.replicate_succ, List.cons_append]]
  rw [List.dropWhile_cons]
  simp only [show isPySpace 'a' = false from rfl, Bool.false_eq_true, if_false]
  rw [show 'a' :: (List.replicate n 'a' ++ ['\n']) =
    (List.replicate (n + 1) 'a') ++ ['\n'] from by
      rw [List.replicate_succ, List.cons_append]]
  rw [List.reverse_append, List.reverse_replicate]
  simp only [List.reverse_cons, List.reverse_nil, List.nil_append, List.singleton_append]
  rw [List.dropWhile_cons]
  simp only [show isPySpace '\n' = true from rfl, if_true]
  rw [dropWhile_replicate_a n, List.reverse_replicate]

lemma debugMsg_rep97_ten (n : Nat) :
    debugMsg (List.replicate (n + 1) 97 ++ [10]) =
      String.mk (List.replicate (n + 1) 'a') := by
  unfold debugMsg
  rw [utf8DecodeIgnore_rep97_ten, pyStrip_rep_a_newline]

lemma stringMk_rep_a_ne_empty (n : Nat) :
    String.mk (List.replicate (n + 1) 'a') ≠ "" := by
  intro h
  have := congrArg String.data h
  simp [List.replicate_succ] at this

/-- A full buffer of `n+1` letters followed by a newline decodes, at once,
to the single debug event carrying all `n+1` letters. -/
lemma runBuf_rep97_ten (n : Nat) :
    runBuf (List.replicate (n + 1) 97 ++ [10]) =
      ([.debug (String.mk (List.replicate (n + 1) 'a'))], []) := by
  have hx : List.replicate (n + 1) 97 ++ [10] =
      97 :: (List.replicate n 97 ++ [10]) := by
    rw [List.replicate_succ, List.cons_append]
  have hnl : findNL (97 :: (List.replicate n 97 ++ [10])) = some (n + 1) := by
    rw [← List.cons_append, ← List.replicate_succ]
    exact findNL_replicate_append_ten (n + 1) 97 (by omega)
  have hstep := step_text_line 97 (List.replicate n 97 ++ [10]) (n + 1)
    (by decide) hnl
  rw [← hx] at hstep
  have hlen : (List.replicate (n + 1) 97 ++ [10]).length = n + 2 := by simp
  rw [List.take_of_length_le (by omega), List.drop_eq_nil_of_le (by omega),
    debugMsg_rep97_ten n, if_neg (stringMk_rep_a_ne_empty n)] at hstep
  rw [runBuf_emit _ _ _ hstep, runBuf_nil]
  rfl

/-- The first oversized chunk alone: no newline yet, over the cap, so the
buffer is truncated to its trailing 256 bytes with no event. -/
lemma runBuf_rep97_big :
    runBuf (List.replicate 2049 97) = ([], List.replicate 256 97) := by
  have hx : List.replicate 2049 (97 : Nat) = 97 :: List.replicate 2048 97 := by
    rw [show (2049 : Nat) = 2048 + 1 from by norm_num, List.replicate_succ]
  have hnl : findNL (97 :: List.replicate 2048 (97 : Nat)) = Option.none := by
    rw [← hx]
    exact findNL_replicate_none 2049 97 (by omega)
  have hstep := step_text_nonl_big 97 (List.replicate 2048 97) (by decide) hnl
    (by rw [List.length_cons, List.length_replicate]; omega)
  rw [← hx] at hstep
  rw [runBuf_stuck _ _ hstep]
  rw [show (List.replicate 2049 (97:Nat)).length - 256 = 1793 from by
    rw [List.length_replicate], List.drop_replicate]

lemma feedChunk_def (es : List Event) (buf c : List Nat) :
    feedChunk (es, buf) c = (es ++ (runBuf (buf ++ c)).1, (runBuf (buf ++ c)).2) := rfl

lemma runBuf_rep97_ten_256 :
    runBuf (List.replicate 256 97 ++ [10]) =
      ([.debug (String.mk (List.replicate 256 'a'))], []) := by
  have h := runBuf_rep97_ten 255
  norm_num at h
  exact h

lemma runBuf_rep97_ten_2049 :
    runBuf (List.replicate 2049 97 ++ [10]) =
      ([.debug (String.mk (List.replicate 2049 'a'))], []) := by
  have h := runBuf_rep97_ten 2048
  norm_num at h
  exact h

/-- C1 (counterexample): 2049 letter bytes followed by a newline give one
long debug line when fed at once, but only the 256 surviving letters when
the oversized chunk arrives first and is truncated. -/
theorem chunked_decode_ne_at_once :
    decodeChunks [List.replicate 2049 97, [10]] ≠
      runBuf (List.replicate 2049 97 ++ [10]) := by
  have h1 : decodeChunks [List.replicate 2049 97, [10]] =
      ([.debug (String.mk (List.replicate 256 'a'))], []) := by
    unfold decodeChunks
    rw [List.foldl_cons, feedChunk_def, List.nil_append, List.nil_append,
      runBuf_rep97_big]
    rw [List.foldl_cons, feedChunk_def, runBuf_rep97_ten_256, List.foldl_nil]
    rfl
  have h2 := runBuf_rep97_ten_2049
  rw [h1, h2]
  intro heq
  have hfst : ([Event.debug (String.mk (List.replicate 256 'a'))] : List Event) =
      [Event.debug (String.mk (List.replicate 2049 'a'))] := congrArg Prod.fst heq
  have hev : Event.debug (String.mk (List.replicate 256 'a')) =
      Event.debug (String.mk (List.replicate 2049 'a')) := by
    injection hfst
  have hstr : String.mk (List.replicate 256 'a') =
      String.mk (List.replicate 2049 'a') := by
    injection hev
  have hdata : List.replicate 256 'a' = List.replicate 2049 'a' := by
    injection hstr
  have hlen := congrArg List.length hdata
  rw [List.length_replicate, List.length_replicate] at hlen
  omega

/-- C1 (amended): for every way of splitting a byte sequence into chunks,
feeding the chunks one at a time produces the same events and residual
buffer as feeding the concatenation at once, provided the total length is
at most 2048 bytes so the truncation cap is never hit. -/
theorem frame_decoder_chunk_invariance (chunks : List (List Nat))
    (h : chunks.flatten.length ≤ 2048) :
    decodeChunks chunks = runBuf chunks.flatten :=
  decodeChunks_eq_runBuf chunks h

/-- Witness for C1: a frame split across two chunks plus a debug line in a
third decode identically to the at-once run. -/
theorem frame_decoder_chunk_invariance_witness :
    ([[0xAB, 192], [168, 1, 42, 10], [104, 105, 10]] : List (List Nat)).flatten.length ≤ 2048 ∧
      decodeChunks [[0xAB, 192], [168, 1, 42, 10], [104, 105, 10]] =
        runBuf ([[0xAB, 192], [168, 1, 42, 10], [104, 105, 10]] : List (List Nat)).flatten :=
  ⟨by decide, frame_decoder_chunk_invariance _ (by decide)⟩

/-- C7: with the marker at the head of the buffer, fewer than 6 buffered
bytes emit nothing and consume nothing; with 6 or more, the first emitted
event is the status frame built from bytes 1–5. -/
theorem marker_short_buffer_waits (buf : List Nat)
    (hhead : buf.head? = some MAGIC_BYTE) :
    (buf.length < 6 → runBuf buf = ([], buf)) ∧
    (6 ≤ buf.length → (runBuf buf).1.head? = some (.status
      (frameIpStr (buf.getD 1 0) (buf.getD 2 0) (buf.getD 3 0) (buf.getD 4 0))
      (buf.getD 5 0))) := by
  cases buf with
  | nil => simp at hhead
  | cons b rest =>
    rw [List.head?_cons, Option.some.injEq] at hhead
    subst hhead
    constructor
    · intro hlen
      rw [List.length_cons] at hlen
      exact runBuf_stuck _ _ (step_magic_short rest (by omega))
    · intro hlen
      rw [List.length_cons] at hlen
      rw [runBuf_emit _ _ _ (step_magic_frame rest (by omega))]
      rfl

/-- Witness for C7: a 3-byte marker-headed buffer waits; a full 6-byte
frame emits its status event first. -/
theorem marker_short_buffer_waits_witness :
    (([0xAB, 1, 2] : List Nat).head? = some MAGIC_BYTE ∧
      runBuf [0xAB, 1, 2] = ([], [0xAB, 1, 2])) ∧
    (([0xAB, 192, 168, 1, 42, 10] : List Nat).head? = some MAGIC_BYTE ∧
      (runBuf [0xAB, 192, 168, 1, 42, 10]).1.head? = some (.status
        (frameIpStr 192 168 1 42) 10)) :=
  ⟨⟨by decide, (marker_short_buffer_waits [0xAB, 1, 2] (by decide)).1 (by decide)⟩,
    ⟨by decide, (marker_short_buffer_waits [0xAB, 192, 168, 1, 42, 10]
      (by decide)).2 (by decide)⟩⟩

/-- C8: with a non-marker head byte, no newline anywhere and more than
2048 buffered bytes, the decoder keeps exactly the trailing 256 bytes and
emits nothing. -/
theorem oversized_unterminated_buffer_truncates (buf : List Nat) (b : Nat)
    (hhead : buf.head? = some b) (hb : b ≠ MAGIC_BYTE) (hnl : 10 ∉ buf)
    (hlen : buf.length > 2048) :
    runBuf buf = ([], buf.drop (buf.length - 256)) ∧
      (buf.drop (buf.length - 256)).length = 256 := by
  cases buf with
  | nil => simp at hhead
  | cons x rest =>
    rw [List.head?_cons, Option.some.injEq] at hhead
    cases hhead
    refine ⟨runBuf_stuck _ _ (step_text_nonl_big b rest hb ?_ hlen), ?_⟩
    · rw [findNL_eq_none_iff]
      exact hnl
    · rw [List.length_drop]
      rw [List.length_cons] at hlen ⊢
      omega

/-- Witness for C8: 2049 letter bytes truncate to the trailing 256. -/
theorem oversized_unterminated_buffer_truncates_witness :
    runBuf (List.replicate 2049 97) =
      ([], (List.replicate 2049 (97 : Nat)).drop
        ((List.replicate 2049 (97 : Nat)).length - 256)) ∧
      ((List.replicate 2049 (97 : Nat)).drop
        ((List.replicate 2049 (97 : Nat)).length - 256)).length = 256 :=
  oversized_unterminated_buffer_truncates (List.replicate 2049 97) 97
    (by rw [show (2049 : Nat) = 2048 + 1 from by norm_num, List.replicate_succ,
      List.head?_cons])
    (by decide)
    (by
      intro hmem
      rw [List.mem_replicate] at hmem
      omega)
    (by rw [List.length_replicate]; omega)

/-- C2 (counterexample): the table's names for 10/11 carry a `WIFI_`
prefix and the unknown-code rendering has a space before the parenthesis,
so code 200 does not render as `UNKNOWN(200)` and code 10 is not
`CONNECT_SUCCESS`. -/
theorem status_table_claim_false :
    statusName 200 ≠ "UNKNOWN(200)" ∧ statusName 10 ≠ "CONNECT_SUCCESS" := by
  decide

/-- C2 (amended): the decoder maps each known status code by the fixed
table (with `WIFI_CONNECT_SUCCESS`/`WIFI_CONNECT_FAILURE` for 10/11) and
every other code to exactly `UNKNOWN (c)`, never failing. -/
theorem status_table_spec :
    statusName 10 = "WIFI_CONNECT_SUCCESS" ∧ statusName 11 = "WIFI_CONNECT_FAILURE" ∧
    statusName 15 = "SCANNING_TARGET" ∧ statusName 16 = "DEVICE_READY" ∧
    statusName 1 = "TARGET_UNREACHABLE" ∧ statusName 2 = "PORT_OPEN" ∧
    statusName 3 = "SERVICE_NO_RESPONSE" ∧ statusName 4 = "SERVICE_RESPONDED" ∧
    statusName 5 = "SCAN_CYCLE_START" ∧ statusName 6 = "SCAN_CYCLE_END" ∧
    ∀ c : Nat, c ∉ [10, 11, 15, 16, 1, 2, 3, 4, 5, 6] →
      statusName c = "UNKNOWN (" ++ toString c ++ ")" := by
  refine ⟨by decide, by decide, by decide, by decide, by decide, by decide,
    by decide, by decide, by decide, by decide, ?_⟩
  intro c hc
  simp only [List.mem_cons, List.not_mem_nil, or_false, not_or] at hc
  obtain ⟨h10, h11, h15, h16, h1, h2, h3, h4, h5, h6⟩ := hc
  have b10 : (c == 10) = false := by simp [h10]
  have b11 : (c == 11) = false := by simp [h11]
  have b15 : (c == 15) = false := by simp [h15]
  have b16 : (c == 16) = false := by simp [h16]
  have b1 : (c == 1) = false := by simp [h1]
  have b2 : (c == 2) = false := by simp [h2]
  have b3 : (c == 3) = false := by simp [h3]
  have b4 : (c == 4) = false := by simp [h4]
  have b5 : (c == 5) = false := by simp [h5]
  have b6 : (c == 6) = false := by simp [h6]
  simp [statusName, STATUS_MAP, List.lookup, b10, b11, b15, b16, b1, b2, b3, b4, b5, b6]

/-- Witness for C2: code 200 is outside the table and renders with the
space. -/
theorem status_table_spec_witness :
    (200 : Nat) ∉ [10, 11, 15, 16, 1, 2, 3, 4, 5, 6] ∧
      statusName 200 = "UNKNOWN (" ++ toString 200 ++ ")" :=
  ⟨by decide,
    status_table_spec.2.2.2.2.2.2.2.2.2.2 200 (by decide)⟩

/-- C9: unpacking the four address bytes as a little-endian u32, swapping
to network order and rendering as a dotted quad displays the bytes in
stream order. -/
theorem address_display_stream_order (b0 b1 b2 b3 : Nat)
    (h0 : b0 < 256) (h1 : b1 < 256) (h2 : b2 < 256) (h3 : b3 < 256) :
    frameIpStr b0 b1 b2 b3 =
      toString b0 ++ "." ++ toString b1 ++ "." ++ toString b2 ++ "." ++ toString b3 := by
  unfold frameIpStr
  have hM : htonl (leU32 b0 b1 b2 b3) =
      b0 * 16777216 + b1 * 65536 + b2 * 256 + b3 := by
    unfold htonl leU32
    omega
  rw [hM]
  unfold ipv4Str
  rw [show (b0 * 16777216 + b1 * 65536 + b2 * 256 + b3) / 16777216 % 256 = b0 from by omega,
    show (b0 * 16777216 + b1 * 65536 + b2 * 256 + b3) / 65536 % 256 = b1 from by omega,
    show (b0 * 16777216 + b1 * 65536 + b2 * 256 + b3) / 256 % 256 = b2 from by omega,
    show (b0 * 16777216 + b1 * 65536 + b2 * 256 + b3) % 256 = b3 from by omega]

/-- Witness for C9: address bytes 192.168.1.42 display verbatim. -/
theorem address_display_stream_order_witness :
    frameIpStr 192 168 1 42 = "192.168.1.42" := by
  rw [address_display_stream_order 192 168 1 42 (by decide) (by decide)
    (by decide) (by decide)]
  decide

/-- C4 (counterexample): code 16 is DEVICE_READY, yet a DEVICE_READY frame
whose address is not the all-zero sentinel does not release the prompt
gate even with zero waiters pending. -/
theorem device_ready_nonzero_address_no_release :
    statusName 16 = "DEVICE_READY" ∧
      statusDirectRelease 192 168 1 1 16 0 = false := by
  decide

/-- C4 (amended): a decoded DEVICE_READY frame releases the prompt gate
directly exactly when its displayed address is the all-zero sentinel and
no waiters are registered at that moment. -/
theorem device_ready_direct_release (b0 b1 b2 b3 n : Nat) :
    statusDirectRelease b0 b1 b2 b3 16 n = true ↔
      (frameIpStr b0 b1 b2 b3 = "0.0.0.0" ∧ n = 0) := by
  unfold statusDirectRelease
  rw [if_neg (by decide), if_neg (by decide), if_neg (by decide)]
  by_cases hip : frameIpStr b0 b1 b2 b3 = "0.0.0.0"
  · rw [if_pos hip, if_neg (by decide), if_neg (by decide), if_pos (by decide)]
    simp [hip]
  · rw [if_neg hip]
    simp [hip]

/-- C3: notifying a status fires every registered waiter interested in it
exactly once and removes it; a second notify does not refire it;
uninterested waiters stay registered. -/
theorem notify_fires_once (st : Registry) (name : String) (w : Waiter)
    (hnodup : (st.waiters.map (·.id)).Nodup)
    (hw : w ∈ st.waiters) (hint : w.statuses.contains name = true) :
    (w ∉ (notifyStatusWaiters st name).waiters) ∧
    ((notifyStatusWaiters st name).fired.count w.id = st.fired.count w.id + 1) ∧
    ((notifyStatusWaiters (notifyStatusWaiters st name) name).fired.count w.id =
      (notifyStatusWaiters st name).fired.count w.id) ∧
    (∀ w' ∈ st.waiters, w'.statuses.contains name = false →
      w' ∈ (notifyStatusWaiters st name).waiters) ∧
    (∀ w' ∈ st.waiters, w'.statuses.contains name = true →
      w'.id ∈ (notifyStatusWaiters st name).fired) := by
  have htrig : w ∈ st.waiters.filter (fun w => w.statuses.contains name) :=
    List.mem_filter.mpr ⟨hw, hint⟩
  have hsub : (st.waiters.filter (fun w => w.statuses.contains name)).Sublist st.waiters :=
    List.filter_sublist _
  have hmapnodup :
      ((st.waiters.filter (fun w => w.statuses.contains name)).map (·.id)).Nodup :=
    (hsub.map (·.id)).nodup hnodup
  refine ⟨?_, ?_, ?_, ?_, ?_⟩
  · intro hmem
    have := (List.mem_filter.mp hmem).2
    rw [hint] at this
    simp at this
  · show (st.fired ++ _).count w.id = _
    rw [List.count_append]
    have hone :
        ((st.waiters.filter (fun w => w.statuses.contains name)).map (·.id)).count w.id = 1 :=
      List.count_eq_one_of_mem hmapnodup (List.mem_map.mpr ⟨w, htrig, rfl⟩)
    rw [hone]
  · have hempty :
        ((notifyStatusWaiters st name).waiters.filter
          (fun w => w.statuses.contains name)) = [] := by
      rw [List.filter_eq_nil_iff]
      intro w' hmem
      have := (List.mem_filter.mp hmem).2
      simp at this
      simp [this]
    show ((notifyStatusWaiters st name).fired ++ _).count w.id = _
    rw [hempty]
    simp
  · intro w' hmem hnot
    exact List.mem_filter.mpr ⟨hmem, by rw [hnot]; rfl⟩
  · intro w' hmem hw'
    refine List.mem_append.mpr (Or.inr ?_)
    exact List.mem_map.mpr ⟨w', List.mem_filter.mpr ⟨hmem, hw'⟩, rfl⟩

/-- Witness for C3: a two-waiter registry notified with "X" fires waiter 0
once, does not refire it on a second notify, and keeps waiter 1. -/
theorem notify_fires_once_witness :
    ((⟨0, ["X"]⟩ : Waiter) ∉
      (notifyStatusWaiters ⟨[⟨0, ["X"]⟩, ⟨1, ["Y"]⟩], []⟩ "X").waiters) ∧
    ((notifyStatusWaiters ⟨[⟨0, ["X"]⟩, ⟨1, ["Y"]⟩], []⟩ "X").fired.count 0 =
      (Registry.mk [⟨0, ["X"]⟩, ⟨1, ["Y"]⟩] []).fired.count 0 + 1) ∧
    ((notifyStatusWaiters
        (notifyStatusWaiters ⟨[⟨0, ["X"]⟩, ⟨1, ["Y"]⟩], []⟩ "X") "X").fired.count 0 =
      (notifyStatusWaiters ⟨[⟨0, ["X"]⟩, ⟨1, ["Y"]⟩], []⟩ "X").fired.count 0) ∧
    ((⟨1, ["Y"]⟩ : Waiter) ∈
      (notifyStatusWaiters ⟨[⟨0, ["X"]⟩, ⟨1, ["Y"]⟩], []⟩ "X").waiters) := by
  have h := notify_fires_once ⟨[⟨0, ["X"]⟩, ⟨1, ["Y"]⟩], []⟩ "X" ⟨0, ["X"]⟩
    (by decide) (by decide) (by decide)
  exact ⟨h.1, h.2.1, h.2.2.1, h.2.2.2.1 ⟨1, ["Y"]⟩ (by decide) (by decide)⟩

lemma findNL_append_ten (l : List Nat) (h : 10 ∉ l) :
    findNL (l ++ [10]) = some l.length := by
  induction l with
  | nil => simp [findNL]
  | cons b rest ih =>
    have hb : b ≠ 10 := by
      intro hb
      exact h (by rw [hb]; exact List.mem_cons_self _ _)
    have hrest : 10 ∉ rest := fun hm => h (List.mem_cons_of_mem _ hm)
    rw [List.cons_append]
    simp [findNL, hb, ih hrest]

lemma utf8DecodeIgnore_ff_cons (bs : List Nat) :
    utf8DecodeIgnore (0xFF :: bs) = utf8DecodeIgnore bs := by
  rw [utf8DecodeIgnore.eq_def]
  dsimp only
  rw [if_neg (by decide), if_neg (by decide), if_neg (by decide), if_neg (by decide)]

lemma utf8DecodeIgnore_all_ascii (bs : List Nat) (h : ∀ b ∈ bs, b < 128) :
    utf8DecodeIgnore bs = bs.map Char.ofNat := by
  induction bs with
  | nil => rfl
  | cons b rest ih =>
    rw [utf8DecodeIgnore_ascii_cons b rest (h b (List.mem_cons_self _ _)),
      ih (fun x hx => h x (List.mem_cons_of_mem _ hx)), List.map_cons]

/-- C5 (counterexample): the stray byte 0xFF before an ASCII letter is
dropped by the code's decoding, not replaced with U+FFFD as the claim
states: the decoder's debug event for the line `FF 'A' LF` is exactly
"A". -/
theorem invalid_byte_dropped_not_replaced :
    utf8DecodeIgnore [0xFF, 65] = ['A'] ∧
    utf8DecodeReplaceSpec [0xFF, 65] = ['�', 'A'] ∧
    utf8DecodeIgnore [0xFF, 65] ≠ utf8DecodeReplaceSpec [0xFF, 65] ∧
    runBuf [0xFF, 65, 10] = ([.debug "A"], []) := by
  decide

/-- C5 (amended): debug-line decoding is permissive and total — invalid
bytes are dropped (never a failure), ASCII bytes decode to themselves, and
any newline-terminated non-marker line is consumed whole, emitting its
stripped decoded text (or nothing when it strips to empty). -/
theorem debug_line_decoded_permissively :
    (∀ bs : List Nat, utf8DecodeIgnore (0xFF :: bs) = utf8DecodeIgnore bs) ∧
    (∀ bs : List Nat, (∀ b ∈ bs, b < 128) → utf8DecodeIgnore bs = bs.map Char.ofNat) ∧
    (∀ (b : Nat) (rest : List Nat), b ≠ MAGIC_BYTE → 10 ∉ (b :: rest) →
      runBuf ((b :: rest) ++ [10]) =
        (if debugMsg ((b :: rest) ++ [10]) = "" then []
          else [.debug (debugMsg ((b :: rest) ++ [10]))], [])) := by
  refine ⟨utf8DecodeIgnore_ff_cons, utf8DecodeIgnore_all_ascii, ?_⟩
  intro b rest hb hnl
  have hfind : findNL ((b :: rest) ++ [10]) = some (b :: rest).length :=
    findNL_append_ten (b :: rest) hnl
  rw [List.cons_append] at hfind
  have hstep := step_text_line b (rest ++ [10]) (b :: rest).length hb hfind
  rw [← List.cons_append] at hstep
  have hlen : ((b :: rest) ++ [10]).length = (b :: rest).length + 1 := by
    simp
  rw [List.take_of_length_le (by omega), List.drop_eq_nil_of_le (by omega)] at hstep
  rw [runBuf_emit _ _ _ hstep, runBuf_nil]
  by_cases hmsg : debugMsg ((b :: rest) ++ [10]) = ""
  · rw [if_pos hmsg, if_pos hmsg]
    rfl
  · rw [if_neg hmsg, if_neg hmsg]
    rfl

/-- Witness for C5: concrete instances of all three conjuncts. -/
theorem debug_line_decoded_permissively_witness :
    utf8DecodeIgnore [0xFF, 65] = utf8DecodeIgnore [65] ∧
    utf8DecodeIgnore [104, 105] = [104, 105].map Char.ofNat ∧
    runBuf [104, 105, 10] =
      (if debugMsg [104, 105, 10] = "" then []
        else [.debug (debugMsg [104, 105, 10])], []) := by
  refine ⟨debug_line_decoded_permissively.1 [65],
    debug_line_decoded_permissively.2.1 [104, 105] (by decide), ?_⟩
  have h := debug_line_decoded_permissively.2.2 104 [105] (by decide) (by decide)
  simpa using h

/-- C6: every validation failure — invalid IPv4 to `scan -t`, `join -i`
with an empty store or an out-of-range index, a missing/invalid option
combination, or a malformed option list — reports a local error, performs
zero transport writes, and releases the gate via the default 0.8 s hold. -/
theorem validation_failure_no_write :
    (∀ (ip : String) (more : List String) (ready : Bool),
      isValidIPv4 ip = false →
      cmd_scan ("-t" :: ip :: more) ready = mkErr "Error: Invalid IPv4 address.") ∧
    (∀ (args : List String) (saved : List (String × String)) (ready : Bool)
        (s p : Option String) (i : Int),
      joinParseLoop args Option.none Option.none Option.none = .ok (s, p, some i) →
      (saved.isEmpty ∨ ¬ (0 ≤ i ∧ i < (saved.length : Int))) →
      ((cmd_join args saved ready).writes = [] ∧
        (cmd_join args saved ready).errors ≠ [] ∧
        (cmd_join args saved ready).gate = .hold 800)) ∧
    (∀ (args : List String) (saved : List (String × String)) (ready : Bool)
        (s p : Option String),
      joinParseLoop args Option.none Option.none Option.none = .ok (s, p, Option.none) →
      ¬ (s.getD "" ≠ "" ∧ p.getD "" ≠ "") →
      cmd_join args saved ready =
        mkErr "Usage:\n  join -s <ssid> -p <password>\n  join -i <index>") ∧
    (∀ (args : List String) (saved : List (String × String)) (ready : Bool)
        (msg : String),
      joinParseLoop args Option.none Option.none Option.none = .error msg →
      cmd_join args saved ready = mkErr msg) := by
  refine ⟨?_, ?_, ?_, ?_⟩
  · intro ip more ready h
    unfold cmd_scan
    dsimp only
    rw [if_neg (show ¬ ("-t" = "-all" ∨ "-t" = "--all") from by decide),
      if_pos (show "-t" = "-t" from rfl),
      if_neg (show ¬ (isValidIPv4 ip = true) from by
        rw [h]; exact Bool.false_ne_true)]
  · intro args saved ready s p i hparse hrange
    unfold cmd_join
    rw [hparse]
    dsimp only
    rcases hrange with hempty | hoob
    · rw [if_pos hempty]
      exact ⟨rfl, by simp [mkErr], rfl⟩
    · by_cases hs : saved.isEmpty
      · rw [if_pos hs]
        exact ⟨rfl, by simp [mkErr], rfl⟩
      · rw [if_neg hs, if_neg hoob]
        exact ⟨rfl, by simp [mkErr], rfl⟩
  · intro args saved ready s p hparse hsp
    unfold cmd_join
    rw [hparse]
    dsimp only
    match s, p with
    | Option.none, Option.none => rfl
    | Option.none, some p' => rfl
    | some s', Option.none => rfl
    | some s', some p' =>
      dsimp only
      rw [if_neg (by simpa using hsp)]
  · intro args saved ready msg hparse
    unfold cmd_join
    rw [hparse]

/-- Witness for C6: `scan -t 999.999.999.999`, `join -i 0` on an empty
store, bare `join`, and `join -x` all fail locally with no write and the
default hold. -/
theorem validation_failure_no_write_witness :
    cmd_scan ["-t", "999.999.999.999"] true = mkErr "Error: Invalid IPv4 address." ∧
    ((cmd_join ["-i", "0"] [] true).writes = [] ∧
      (cmd_join ["-i", "0"] [] true).errors ≠ [] ∧
      (cmd_join ["-i", "0"] [] true).gate = .hold 800) ∧
    cmd_join [] [] true =
      mkErr "Usage:\n  join -s <ssid> -p <password>\n  join -i <index>" ∧
    cmd_join ["-x"] [] true = mkErr "Unknown option: -x" :=
  ⟨validation_failure_no_write.1 "999.999.999.999" [] true (by decide),
    validation_failure_no_write.2.1 ["-i", "0"] [] true Option.none Option.none 0
      rfl (Or.inl (by decide)),
    validation_failure_no_write.2.2.1 [] [] true Option.none Option.none
      rfl (by decide),
    validation_failure_no_write.2.2.2 ["-x"] [] true "Unknown option: -x" rfl⟩

/-- C10: the console dispatcher lowercases only the first token, looks it
up, and passes the remaining tokens through unchanged; tokens with equal
lowercasings dispatch identically, so any capitalization of a known verb
runs the same handler as its lowercase form. -/
theorem verb_lookup_case_insensitive :
    (∀ (t : String) (rest : List String),
      dispatch (t :: rest) = (command_map.lookup (pyLower t)).map (fun h => (h, rest))) ∧
    (∀ (t u : String) (rest : List String), pyLower t = pyLower u →
      dispatch (t :: rest) = dispatch (u :: rest)) := by
  constructor
  · intro t rest
    rfl
  · intro t u rest h
    unfold dispatch
    dsimp only
    rw [h]

/-- Witness for C10: "SCAN", "Join" and "EXIT" dispatch exactly like their
lowercase forms, with arguments untouched. -/
theorem verb_lookup_case_insensitive_witness :
    dispatch ["SCAN", "-all"] =
      (command_map.lookup (pyLower "SCAN")).map (fun h => (h, ["-all"])) ∧
    dispatch ["SCAN", "-all"] = dispatch ["scan", "-all"] ∧
    dispatch ["Join", "-i", "0"] = dispatch ["join", "-i", "0"] ∧
    dispatch ["EXIT"] = dispatch ["exit"] :=
  ⟨verb_lookup_case_insensitive.1 "SCAN" ["-all"],
    verb_lookup_case_insensitive.2 "SCAN" "scan" ["-all"] (by decide),
    verb_lookup_case_insensitive.2 "Join" "join" ["-i", "0"] (by decide),
    verb_lookup_case_insensitive.2 "EXIT" "exit" [] (by decide)⟩

end Esp32
